import Mathlib

/-!
Shallow embedding of the workflow-orchestration core of the
`autodevops-ai-orchestrator` repository:

* `src/core/orchestration-engine.js` — `OrchestrationEngine`
  (plan creation / parsing / validation / fallback, `executeWorkflow`,
  `cancelWorkflow`, `getMetrics`);
* `src/core/state-manager.js` — `StateManager` (aggregate metrics) and
  `WorkflowExecutor` (`execute`, `executeStep`, `runStepWithIntegration`,
  the per-kind step handlers, `generateSummary`);
* `src/core/task-queue.js` — `TaskQueue` (bounded-concurrency admission loop).

Modelling conventions, stated once here:

* JavaScript `x || d` on a field read is embedded explicitly: for numeric
  fields `0` is falsy, for string fields `""` is falsy, an absent field is
  `Option.none`.
* `uuidv4()` is a fresh-name supply: a `Nat` counter threaded through the
  functions that call it, rendered as the string `uuid-<n>`.
* ISO wall-clock timestamps (`createdAt`, `completedAt`, `failedAt`,
  `cancelledAt`) are drawn from a monotone `clock : Nat` counter in the
  engine state; the per-step `executedAt` stamp is elided (it never
  influences control flow).
* Asynchronous provider calls are oracles supplied by an `Env`: each
  operation returns `Except String ProviderData` (a rejection carries the
  error message), and `Env.duration` gives the wall-time of one step
  invocation, used to decide the `Promise.race` against the step's timeout
  timer: the timer wins exactly when the invocation takes strictly longer
  than `timeout` (a tie lets the invocation win; the claims only concern
  strict excess).
* Node's `EventEmitter.emit` is synchronous, so the engine's
  `workflow:completed` / `workflow:failed` listeners (which delete the
  workflow from `activeWorkflows`) are applied inline at the point the
  executor emits.
-/

namespace AutoDevOps

/-- JavaScript `x || d` for an optional numeric field: an absent field and
`0` are falsy and yield the default. -/
def jsOrNat (x : Option Nat) (d : Nat) : Nat :=
  match x with
  | none => d
  | some n => if n = 0 then d else n

/-- JavaScript `x || d` for an optional string field: an absent field and
the empty string are falsy and yield the default. -/
def jsOrStr (x : Option String) (d : String) : String :=
  match x with
  | none => d
  | some s => if s = "" then d else s

/-- The `uuidv4()` supply: counter `n` yields the fresh id `uuid-<n>`. -/
def uuid (n : Nat) : String := "uuid-" ++ toString n

/-! Step parameters.  The core reads only `message`, `files` and `branch`
(in `handleCommitChangesStep`); everything else in the opaque payload is
passed through to the provider oracle untouched, so those three optional
fields are the whole observable shape. -/

/-- Opaque `parameters` payload of a step; the fields the core itself reads. -/
structure Params where
  message : Option String := none
  files : Option (List String) := none
  branch : Option String := none
deriving Repr, DecidableEq

/-- A raw step entry as found in a parsed AI plan, before
`validateWorkflowPlan` coerces it: every field may be absent. -/
structure RawStep where
  id : Option String := none
  type : Option String := none
  description : Option String := none
  integration : Option String := none
  parameters : Option Params := none
  timeout : Option Nat := none
  retryCount : Option Nat := none
deriving Repr, DecidableEq

/-- A validated step (the element shape produced by
`validateWorkflowPlan` and `createFallbackPlan`).  `type`, `description`
and `integration` are passed through without defaults in the source and
so may still be absent. -/
structure Step where
  id : String
  type : Option String
  description : Option String
  integration : Option String
  parameters : Params
  timeout : Nat
  retryCount : Nat
deriving Repr, DecidableEq

/-- A validated plan (the shape produced by `validateWorkflowPlan` and
`createFallbackPlan`). -/
structure Plan where
  steps : List Step
  estimatedDuration : Nat
  priority : String
  dependencies : List String
  rollbackStrategy : String
deriving Repr, DecidableEq

/-- The `steps` field of a parsed plan object, as tested by
`plan.steps && Array.isArray(plan.steps)`: absent/falsy, truthy but not an
array, or an actual array of entries. -/
inductive JsStepsField where
  | missing
  | notArray
  | arr (steps : List RawStep)
deriving Repr, DecidableEq

/-- A parsed JSON object, restricted to the fields `validateWorkflowPlan`
reads. -/
structure RawPlanObj where
  steps : JsStepsField := .missing
  estimatedDuration : Option Nat := none
  priority : Option String := none
  dependencies : Option (List String) := none
  rollbackStrategy : Option String := none
deriving Repr, DecidableEq

/-- The result of `JSON.parse` on an AI response: `jsNull` is the JSON
literal `null` (property access on it throws a `TypeError`); `scalar`
covers numbers, strings, booleans and arrays (property access yields
`undefined`, i.e. every field reads as absent); `obj` is an object. -/
inductive ParsedValue where
  | jsNull
  | scalar
  | obj (o : RawPlanObj)
deriving Repr, DecidableEq

/-- An AI plan response, modelled by the outcome of `JSON.parse` on it:
either the parse throws (`unparseable`) or it yields a `ParsedValue`. -/
inductive AiResponse where
  | unparseable
  | parsed (v : ParsedValue)
deriving Repr, DecidableEq

/-- Coercion of one raw step inside `validateWorkflowPlan`:
`id: step.id || uuidv4()` (the uuid supply is consumed only when `id` is
falsy, matching `||` short-circuiting), `parameters: step.parameters || {}`,
`timeout: step.timeout || 60000`, `retryCount: step.retryCount || 2`. -/
def validateStep (st : RawStep) (n : Nat) : Step × Nat :=
  let idAndNext : String × Nat :=
    match st.id with
    | none => (uuid n, n + 1)
    | some i => if i = "" then (uuid n, n + 1) else (i, n)
  (
    { id := idAndNext.1
      type := st.type
      description := st.description
      integration := st.integration
      parameters := st.parameters.getD {}
      timeout := jsOrNat st.timeout 60000
      retryCount := jsOrNat st.retryCount 2 },
    idAndNext.2)

/-- Coercion of a list of raw steps, threading the uuid supply in order. -/
def validateSteps : List RawStep → Nat → List Step × Nat
  | [], n => ([], n)
  | st :: rest, n =>
    let p := validateStep st n
    let q := validateSteps rest p.2
    (p.1 :: q.1, q.2)

/-- Coercion of a successfully parsed plan object: defaults
`estimatedDuration || 300`, `priority || 'medium'`, `dependencies || []`,
`rollbackStrategy || 'automatic'`; the steps array is coerced entrywise
when present and an array, and is `[]` otherwise. -/
def coercePlanObj (o : RawPlanObj) (n : Nat) : Plan × Nat :=
  let stepsAndNext : List Step × Nat :=
    match o.steps with
    | .arr raws => validateSteps raws n
    | _ => ([], n)
  (
    { steps := stepsAndNext.1
      estimatedDuration := jsOrNat o.estimatedDuration 300
      priority := jsOrStr o.priority "medium"
      dependencies := o.dependencies.getD []
      rollbackStrategy := jsOrStr o.rollbackStrategy "automatic" },
    stepsAndNext.2)

/-- `OrchestrationEngine.validateWorkflowPlan` on a parsed value.  On the
JSON literal `null` the very first object-literal field read
(`plan.estimatedDuration`) throws a `TypeError`, modelled as the error
case; a scalar/array parse reads every field as `undefined` and so
coerces like an object with all fields absent. -/
def validateWorkflowPlan (v : ParsedValue) (n : Nat) : Except String (Plan × Nat) :=
  match v with
  | .jsNull => .error "TypeError: cannot read properties of null"
  | .scalar => .ok (coercePlanObj {} n)
  | .obj o => .ok (coercePlanObj o n)

/-- `OrchestrationEngine.createFallbackPlan`: the fixed 4-step sequence
analyze → generate_code → run_tests → commit_changes, with the source's
literal integrations, timeouts and retry counts, `estimatedDuration` 360
and `priority` medium. -/
def createFallbackPlan (n : Nat) : Plan × Nat :=
  (
    { steps :=
        [ { id := uuid n, type := some "analyze"
            description := some "Analyze requirements"
            integration := some "taskMaster", parameters := {}
            timeout := 30000, retryCount := 1 }
        , { id := uuid (n + 1), type := some "generate_code"
            description := some "Generate or modify code"
            integration := some "taskMaster", parameters := {}
            timeout := 120000, retryCount := 2 }
        , { id := uuid (n + 2), type := some "run_tests"
            description := some "Execute test suite"
            integration := some "playwright", parameters := {}
            timeout := 180000, retryCount := 1 }
        , { id := uuid (n + 3), type := some "commit_changes"
            description := some "Commit changes to repository"
            integration := some "github", parameters := {}
            timeout := 30000, retryCount := 2 } ]
      estimatedDuration := 360
      priority := "medium"
      dependencies := []
      rollbackStrategy := "automatic" },
    n + 4)

/-- `OrchestrationEngine.parseWorkflowPlan`: tries `JSON.parse` and
`validateWorkflowPlan` inside one `try`; any throw from either (an
unparseable response, or the `TypeError` on a `null` parse) falls back to
`createFallbackPlan`.  Total by construction — normalization never
throws. -/
def parseWorkflowPlan (r : AiResponse) (n : Nat) : Plan × Nat :=
  match r with
  | .unparseable => createFallbackPlan n
  | .parsed v =>
    match validateWorkflowPlan v n with
    | .ok p => p
    | .error _ => createFallbackPlan n

/-! Workflow executor (`src/core/state-manager.js`, `WorkflowExecutor`). -/

/-- The payload a capability provider resolves with, restricted to the
fields the core itself inspects (in `generateSummary`); providers may
attach anything else, which the core passes through untouched. -/
structure ProviderData where
  files : Option (List String) := none
  passed : Option Nat := none
  failed : Option Nat := none
  sha : Option String := none
  html_url : Option String := none
deriving Repr, DecidableEq

/-- The per-step result object built by the step handlers:
a `type` tag plus the provider data (the `timestamp` field is elided). -/
structure StepResult where
  type : String
  data : ProviderData
deriving Repr, DecidableEq

/-- A capability provider (one entry of the `integrations` registry):
each operation is an oracle returning either the resolved data or the
message of the error it throws.  Arguments mirror what the executor
passes: `analyzeRequirements`/`generateCode` get the workflow instruction
and the step parameters, `runTests`/`deploy` get the parameters,
`setupMonitoring` gets the workflow id and parameters, `commitChanges`
gets the assembled message/files/branch record. -/
structure Integration where
  analyzeRequirements : String → Params → Except String ProviderData
  generateCode : String → Params → Except String ProviderData
  runTests : Params → Except String ProviderData
  commitChanges : String → List String → String → Except String ProviderData
  setupMonitoring : String → Params → Except String ProviderData
  deploy : Params → Except String ProviderData

/-- Opaque `options` object passed to `execute`, consumed only by the
plan-provider oracle. -/
def Options := List (String × String)
deriving Repr, DecidableEq

/-- Lifecycle status of a workflow. -/
inductive WStatus where
  | pending
  | running
  | completed
  | failed
  | cancelled
deriving Repr, DecidableEq

/-- One entry of the `workflow.steps` log: the executed step's fields
spread together with `status: 'completed'` and its result (the
`executedAt` stamp is elided). -/
structure ExecutedStep where
  step : Step
  status : String
  result : StepResult
deriving Repr, DecidableEq

/-- The summary object built by `generateSummary` over the collected step
results. -/
structure Summary where
  totalSteps : Nat
  successfulSteps : Nat
  executionTime : Nat
  artifacts : List String
  recommendations : List String
  testsPassed : Option Nat := none
  testsFailed : Option Nat := none
  commitSha : Option String := none
  commitUrl : Option String := none
deriving Repr, DecidableEq

/-- The result the executor resolves with when every step succeeds. -/
structure FinalResult where
  workflowId : String
  status : String
  steps : List StepResult
  summary : Summary
deriving Repr, DecidableEq

/-- One workflow object as created by `executeWorkflow` and mutated along
the way; timestamps are clock-counter values. -/
structure Workflow where
  id : String
  instruction : String
  options : Options
  status : WStatus
  createdAt : Nat
  steps : List ExecutedStep
  plan : Option Plan := none
  result : Option FinalResult := none
  error : Option String := none
  completedAt : Option Nat := none
  failedAt : Option Nat := none
  cancelledAt : Option Nat := none
deriving Repr, DecidableEq

/-- The environment of external oracles: the named integrations registry,
the wall-time each step invocation would take (used for the timeout
race), and the Task Master plan provider (`generatePlan`), which either
throws or returns a response modelled by its parse outcome. -/
structure Env where
  integrations : String → Option Integration
  duration : Step → Nat
  generatePlan : String → Options → Except String AiResponse

/-- `handleAnalyzeStep`: calls `analyzeRequirements` and tags the data. -/
def handleAnalyzeStep (ig : Integration) (ps : Params) (wf : Workflow) :
    Except String StepResult :=
  (ig.analyzeRequirements wf.instruction ps).map fun d => ⟨"analysis", d⟩

/-- `handleGenerateCodeStep`: calls `generateCode` and tags the data. -/
def handleGenerateCodeStep (ig : Integration) (ps : Params) (wf : Workflow) :
    Except String StepResult :=
  (ig.generateCode wf.instruction ps).map fun d => ⟨"code_generation", d⟩

/-- `handleRunTestsStep`: calls `runTests` and tags the data. -/
def handleRunTestsStep (ig : Integration) (ps : Params) :
    Except String StepResult :=
  (ig.runTests ps).map fun d => ⟨"test_results", d⟩

/-- `handleCommitChangesStep`: assembles
`message: parameters.message || 'Automated commit for workflow <id>'`,
`files: parameters.files || []`, `branch: parameters.branch || 'main'`
and calls `commitChanges`. -/
def handleCommitChangesStep (ig : Integration) (ps : Params) (wf : Workflow) :
    Except String StepResult :=
  (ig.commitChanges
      (jsOrStr ps.message ("Automated commit for workflow " ++ wf.id))
      (ps.files.getD [])
      (jsOrStr ps.branch "main")).map fun d => ⟨"commit", d⟩

/-- `handleMonitorStep`: calls `setupMonitoring` with the workflow id. -/
def handleMonitorStep (ig : Integration) (ps : Params) (wf : Workflow) :
    Except String StepResult :=
  (ig.setupMonitoring wf.id ps).map fun d => ⟨"monitoring", d⟩

/-- `handleDeployStep`: calls `deploy` and tags the data. -/
def handleDeployStep (ig : Integration) (ps : Params) :
    Except String StepResult :=
  (ig.deploy ps).map fun d => ⟨"deployment", d⟩

/-- `WorkflowExecutor.runStepWithIntegration`: resolves the named
integration (absence throws `Integration '<name>' not found`) and
dispatches on the step `type` (an unknown or absent type throws
`Unknown step type`). -/
def runStepWithIntegration (env : Env) (step : Step) (wf : Workflow) :
    Except String StepResult :=
  match step.integration.bind env.integrations with
  | none =>
    .error ("Integration '" ++ (step.integration.getD "undefined") ++ "' not found")
  | some ig =>
    match step.type with
    | some "analyze" => handleAnalyzeStep ig step.parameters wf
    | some "generate_code" => handleGenerateCodeStep ig step.parameters wf
    | some "run_tests" => handleRunTestsStep ig step.parameters
    | some "commit_changes" => handleCommitChangesStep ig step.parameters wf
    | some "monitor" => handleMonitorStep ig step.parameters wf
    | some "deploy" => handleDeployStep ig step.parameters
    | t => .error ("Unknown step type: " ++ (t.getD "undefined"))

/-- The message of the error the timeout timer rejects with. -/
def timeoutMsg (step : Step) : String :=
  "Step " ++ step.id ++ " timed out after " ++ toString step.timeout ++ "ms"

/-- `WorkflowExecutor.executeStep`: races the invocation against a
`setTimeout(step.timeout)` timer; the timer wins exactly when the
invocation's wall-time strictly exceeds the timeout, in which case the
step rejects with the timeout error; otherwise the invocation's own
outcome is returned. -/
def executeStep (env : Env) (step : Step) (wf : Workflow) :
    Except String StepResult :=
  if env.duration step > step.timeout then .error (timeoutMsg step)
  else runStepWithIntegration env step wf

/-- `generateSummary`: folds the collected results.  `successfulSteps`
counts results with truthy `data` and falsy `error`; in this embedding
every `StepResult.data` is an object (truthy) and no `error` field
exists on a result, so the filter keeps everything, as it does in the
source for object-valued provider data. -/
def generateSummary (results : List StepResult) : Summary :=
  results.foldl
    (fun s r =>
      let s :=
        if r.type = "code_generation" then
          match r.data.files with
          | some fs => { s with artifacts := s.artifacts ++ fs }
          | none => s
        else s
      let s :=
        if r.type = "test_results" then
          { s with testsPassed := some (r.data.passed.getD 0)
                   testsFailed := some (r.data.failed.getD 0) }
        else s
      if r.type = "commit" then
        { s with commitSha := r.data.sha, commitUrl := r.data.html_url }
      else s)
    { totalSteps := results.length
      successfulSteps := results.length
      executionTime := 0
      artifacts := []
      recommendations := [] }

/-- The step loop of `WorkflowExecutor.execute`: runs the remaining steps
in order, accumulating the resolved results and the entries appended to
`workflow.steps`; the first step rejection aborts the loop (fail-fast),
returning the log and results gathered so far together with the error. -/
def execLoop (env : Env) (wf : Workflow) :
    List Step → List StepResult → List ExecutedStep →
    List StepResult × List ExecutedStep × Option String
  | [], results, log => (results, log, none)
  | step :: rest, results, log =>
    match executeStep env step wf with
    | .ok r =>
      execLoop env wf rest (results ++ [r]) (log ++ [⟨step, "completed", r⟩])
    | .error e => (results, log, some e)

/-- `WorkflowExecutor.execute` on a workflow whose plan is attached:
returns the final `workflow.steps` log together with either the
completed `FinalResult` or the error the failing step threw (which the
source re-throws after emitting `workflow:failed`). -/
def executorExecute (env : Env) (wf : Workflow) (plan : Plan) :
    List ExecutedStep × Except String FinalResult :=
  let r := execLoop env wf plan.steps [] []
  match r.2.2 with
  | none =>
    (r.2.1,
      .ok { workflowId := wf.id, status := "completed", steps := r.1
            summary := generateSummary r.1 })
  | some e => (r.2.1, .error e)

/-! State manager (`src/core/state-manager.js`, `StateManager`). -/

/-- The aggregate metrics record of the `StateManager`. -/
structure Metrics where
  totalWorkflows : Nat
  completedWorkflows : Nat
  failedWorkflows : Nat
  averageDuration : ℚ
deriving Repr, DecidableEq

/-- The metrics record as constructed by the `StateManager` constructor. -/
def Metrics.init : Metrics :=
  { totalWorkflows := 0, completedWorkflows := 0, failedWorkflows := 0
    averageDuration := 0 }

/-- `StateManager.updateMetrics`: bumps `totalWorkflows`, bumps the
completed/failed counter by terminal status, and — when both timestamps
are set (truthy) — folds the duration into the incremental mean using
the already-bumped total.  Note: this method has no call site anywhere
in the repository. -/
def updateMetrics (m : Metrics) (w : Workflow) : Metrics :=
  let m := { m with totalWorkflows := m.totalWorkflows + 1 }
  let m :=
    if w.status = .completed then
      { m with completedWorkflows := m.completedWorkflows + 1 }
    else if w.status = .failed then
      { m with failedWorkflows := m.failedWorkflows + 1 }
    else m
  match w.completedAt with
  | some c =>
    { m with averageDuration :=
        (m.averageDuration * ((m.totalWorkflows : ℚ) - 1)
            + ((c : ℚ) - (w.createdAt : ℚ)))
          / (m.totalWorkflows : ℚ) }
  | none => m

/-- `StateManager.getSuccessRate`: 0 when no workflow was recorded. -/
def getSuccessRate (m : Metrics) : ℚ :=
  if m.totalWorkflows = 0 then 0
  else (m.completedWorkflows : ℚ) / (m.totalWorkflows : ℚ)

/-! Orchestration engine (`src/core/orchestration-engine.js`). -/

/-- Association-list lookup standing in for `Map.prototype.get`. -/
def mapGet (m : List (String × Workflow)) (k : String) : Option Workflow :=
  (m.find? (fun p => p.1 = k)).map (·.2)

/-- `Map.prototype.set`: replace the entry if the key is present,
otherwise append (JS map insertion order). -/
def mapSet (m : List (String × Workflow)) (k : String) (v : Workflow) :
    List (String × Workflow) :=
  if m.any (fun p => p.1 = k) then
    m.map (fun p => if p.1 = k then (k, v) else p)
  else m ++ [(k, v)]

/-- `Map.prototype.delete`. -/
def mapDel (m : List (String × Workflow)) (k : String) :
    List (String × Workflow) :=
  m.filter (fun p => p.1 ≠ k)

/-- The engine's mutable state: the active-workflow registry, the state
manager's metrics, the initialization flag, plus the uuid supply and the
wall-clock counter of this embedding. -/
structure EngineState where
  activeWorkflows : List (String × Workflow)
  metrics : Metrics
  ready : Bool
  nextUuid : Nat
  clock : Nat
deriving Repr, DecidableEq

/-- Engine state right after `initialize()` succeeded. -/
def EngineState.start : EngineState :=
  { activeWorkflows := [], metrics := Metrics.init, ready := true
    nextUuid := 0, clock := 0 }

/-- The planning prompt assembled by `createWorkflowPlan` around the
instruction (template text abbreviated; only its dependence on the
instruction is observable through the oracle). -/
def promptFor (instruction : String) : String :=
  "Analyze this development instruction and create a detailed workflow plan: "
    ++ instruction

/-- `OrchestrationEngine.createWorkflowPlan`: asks the Task Master
provider for a plan (which may throw) and normalizes the response;
threads the uuid supply used for generated step ids. -/
def createWorkflowPlan (env : Env) (instruction : String) (opts : Options)
    (n : Nat) : Except String (Plan × Nat) :=
  match env.generatePlan (promptFor instruction) opts with
  | .error e => .error e
  | .ok resp => .ok (parseWorkflowPlan resp n)

/-- The `{success, workflowId, result|error}` envelope `executeWorkflow`
resolves with. -/
structure Envelope where
  success : Bool
  workflowId : String
  result : Option FinalResult := none
  error : Option String := none
deriving Repr, DecidableEq

/-- The observable outcome of one `executeWorkflow` call: the resolved
envelope, the final state of the (internal) workflow object, and the
engine state afterwards. -/
structure ExecOutcome where
  envelope : Envelope
  workflow : Workflow
  state : EngineState
deriving Repr, DecidableEq

/-- `OrchestrationEngine.executeWorkflow`.  Throws (the promise rejects)
only when the engine is not initialized.  Otherwise: creates a pending
workflow, registers it, plans, runs the executor, and resolves with the
envelope.  The engine's `workflow:completed` / `workflow:failed` event
listeners delete the id from `activeWorkflows` synchronously when the
executor emits; when planning itself throws, no executor event fires and
the failed workflow stays registered. -/
def executeWorkflow (env : Env) (st : EngineState) (instruction : String)
    (opts : Options) : Except String ExecOutcome :=
  if st.ready = false then
    .error "Orchestration Engine not initialized"
  else
    let workflowId := uuid st.nextUuid
    let wf0 : Workflow :=
      { id := workflowId, instruction := instruction, options := opts
        status := .pending, createdAt := st.clock, steps := [] }
    let st1 : EngineState :=
      { st with nextUuid := st.nextUuid + 1, clock := st.clock + 1
                activeWorkflows := mapSet st.activeWorkflows workflowId wf0 }
    match createWorkflowPlan env instruction opts st1.nextUuid with
    | .error e =>
      let wf1 := { wf0 with status := .failed, error := some e,
                            failedAt := some st1.clock }
      .ok { envelope := { success := false, workflowId := workflowId,
                          error := some e },
            workflow := wf1,
            state := { st1 with clock := st1.clock + 1,
                                activeWorkflows :=
                                  mapSet st1.activeWorkflows workflowId wf1 } }
    | .ok (plan, n2) =>
      let wf1 := { wf0 with plan := some plan, status := .running }
      let st2 : EngineState :=
        { st1 with nextUuid := n2
                   activeWorkflows := mapSet st1.activeWorkflows workflowId wf1 }
      let run := executorExecute env wf1 plan
      let st3 : EngineState :=
        { st2 with activeWorkflows := mapDel st2.activeWorkflows workflowId }
      match run.2 with
      | .ok fr =>
        let wf2 := { wf1 with steps := run.1, status := .completed,
                              result := some fr, completedAt := some st3.clock }
        .ok { envelope := { success := true, workflowId := workflowId,
                            result := some fr },
              workflow := wf2,
              state := { st3 with clock := st3.clock + 1 } }
      | .error e =>
        let wf2 := { wf1 with steps := run.1, status := .failed,
                              error := some e, failedAt := some st3.clock }
        .ok { envelope := { success := false, workflowId := workflowId,
                            error := some e },
              workflow := wf2,
              state := { st3 with clock := st3.clock + 1 } }

/-- `OrchestrationEngine.cancelWorkflow`: an unknown id throws the
not-found error; a registered workflow is marked `cancelled` only when
its status is `running` (any other status is left unchanged), and in
every found case the entry is deleted from the registry and the workflow
object returned. -/
def cancelWorkflow (st : EngineState) (workflowId : String) :
    Except String (Workflow × EngineState) :=
  match mapGet st.activeWorkflows workflowId with
  | none => .error ("Workflow " ++ workflowId ++ " not found")
  | some wf =>
    let wf1 :=
      if wf.status = .running then
        { wf with status := .cancelled, cancelledAt := some st.clock }
      else wf
    .ok (wf1,
      { st with clock := st.clock + 1,
                activeWorkflows := mapDel st.activeWorkflows workflowId })

/-! Task queue (`src/core/task-queue.js`). -/

/-- The task queue's mutable state: the FIFO backlog of queued task ids,
the active-job id set (a JS `Set`, modelled as a duplicate-free list),
and the admission bound. -/
structure TQState where
  queue : List String
  activeJobs : List String
  maxConcurrent : Nat
deriving Repr, DecidableEq

/-- The queue as constructed: empty, `maxConcurrent = 3`. -/
def TQState.init : TQState :=
  { queue := [], activeJobs := [], maxConcurrent := 3 }

/-- `Set.prototype.add`: no duplicates. -/
def setAdd (s : List String) (x : String) : List String :=
  if x ∈ s then s else x :: s

/-- One observable event of the queue's lifecycle: `enqueue` is
`addTask` (appends to the FIFO tail); `pollTick` is one iteration of the
`startProcessing` loop body (dequeues and starts the head task only when
the backlog is non-empty and the active-job count is strictly below
`maxConcurrent`); `settle` is the `finally` of `processTask` (the task
completed or failed and leaves the active-job set). -/
inductive TQEvent where
  | enqueue (id : String)
  | pollTick
  | settle (id : String)
deriving Repr, DecidableEq

/-- The queue's transition function over one event. -/
def tqStep (s : TQState) : TQEvent → TQState
  | .enqueue i => { s with queue := s.queue ++ [i] }
  | .pollTick =>
    match s.queue with
    | [] => s
    | t :: rest =>
      if s.activeJobs.length < s.maxConcurrent then
        { s with queue := rest, activeJobs := setAdd s.activeJobs t }
      else s
  | .settle i => { s with activeJobs := s.activeJobs.erase i }

/-- The queue state after an arbitrary finite interleaving of events,
starting from the freshly constructed queue. -/
def tqRun (evs : List TQEvent) : TQState :=
  evs.foldl tqStep TQState.init

/-! Concrete test fixtures: stub providers that always succeed
immediately, and a plan provider whose response never parses as JSON
(so the fallback plan is used) — the setup of the spec's end-to-end
scenario. -/

/-- A stub capability provider: every operation resolves immediately
with an empty payload. -/
def stubIntegration : Integration :=
  { analyzeRequirements := fun _ _ => .ok {}
    generateCode := fun _ _ => .ok {}
    runTests := fun _ => .ok {}
    commitChanges := fun _ _ _ => .ok {}
    setupMonitoring := fun _ _ => .ok {}
    deploy := fun _ => .ok {} }

/-- The scenario environment: the three integrations named by the
fallback plan are registered as succeeding stubs, every invocation takes
no time, and the plan provider always returns non-JSON text. -/
def stubEnv : Env :=
  { integrations := fun nm =>
      if nm = "taskMaster" ∨ nm = "playwright" ∨ nm = "github" then
        some stubIntegration
      else none
    duration := fun _ => 0
    generatePlan := fun _ _ => .ok .unparseable }

/-- The number of entries in the raw `steps` field of a parsed plan
object (0 when the field is absent, falsy or not an array). -/
def rawStepsLen (o : RawPlanObj) : Nat :=
  match o.steps with
  | .arr l => l.length
  | _ => 0

/-- A provider whose `analyzeRequirements` operation always throws. -/
def failingAnalyzeIntegration : Integration :=
  { stubIntegration with analyzeRequirements := fun _ _ => .error "boom" }

/-- Environment for a 2-step plan whose first step (`analyze`) throws:
the plan provider returns a parseable plan, and `taskMaster` rejects
analysis. -/
def failEnv : Env :=
  { integrations := fun nm =>
      if nm = "taskMaster" then some failingAnalyzeIntegration else none
    duration := fun _ => 0
    generatePlan := fun _ _ => .ok (.parsed (.obj
      { steps := .arr
          [ { id := some "s1", type := some "analyze",
              integration := some "taskMaster" }
          , { id := some "s2", type := some "run_tests",
              integration := some "taskMaster" } ] })) }

/-- Environment for a 3-step plan whose second step names an unregistered
integration (`ghost`), so step 2 throws `Integration 'ghost' not found`
after step 1 succeeds. -/
def ghostEnv : Env :=
  { integrations := fun nm =>
      if nm = "taskMaster" then some stubIntegration else none
    duration := fun _ => 0
    generatePlan := fun _ _ => .ok (.parsed (.obj
      { steps := .arr
          [ { id := some "s1", type := some "analyze",
              integration := some "taskMaster" }
          , { id := some "s2", type := some "generate_code",
              integration := some "ghost" }
          , { id := some "s3", type := some "run_tests",
              integration := some "taskMaster" } ] })) }

/-- Environment for a 2-step plan whose second step has a 50ms timeout
while its invocation takes 999999ms: step 2 loses the race against its
timer. -/
def slowEnv : Env :=
  { integrations := fun nm =>
      if nm = "taskMaster" then some stubIntegration else none
    duration := fun s => if s.id = "s2" then 999999 else 0
    generatePlan := fun _ _ => .ok (.parsed (.obj
      { steps := .arr
          [ { id := some "s1", type := some "analyze",
              integration := some "taskMaster" }
          , { id := some "s2", type := some "run_tests",
              integration := some "taskMaster", timeout := some 50 } ] })) }

/-- A workflow sitting in the registry with status `pending` (as one is
while `createWorkflowPlan` is still awaited). -/
def pendingWf : Workflow :=
  { id := "w1", instruction := "demo", options := [], status := .pending
    createdAt := 0, steps := [] }

/-- An engine state whose registry holds one pending workflow. -/
def pendingState : EngineState :=
  { activeWorkflows := [("w1", pendingWf)], metrics := Metrics.init
    ready := true, nextUuid := 1, clock := 1 }

/-- A workflow sitting in the registry with status `running`. -/
def runningWf : Workflow :=
  { id := "w2", instruction := "demo", options := [], status := .running
    createdAt := 0, steps := [] }

/-- An engine state whose registry holds one running workflow. -/
def runningState : EngineState :=
  { activeWorkflows := [("w2", runningWf)], metrics := Metrics.init
    ready := true, nextUuid := 1, clock := 1 }

/-- A burst of 100 enqueues followed by a run of poll ticks. -/
def burstEvs : List TQEvent :=
  ((List.range 100).map fun i => TQEvent.enqueue (toString i))
    ++ List.replicate 10 TQEvent.pollTick

/-- A queue state whose admission bound is saturated. -/
def satState : TQState :=
  { queue := ["t4"], activeJobs := ["t1", "t2", "t3"], maxConcurrent := 3 }

/-- The validated first step of the `ghostEnv` plan. -/
def ghostStep1 : Step :=
  { id := "s1", type := some "analyze", description := none
    integration := some "taskMaster", parameters := {}
    timeout := 60000, retryCount := 2 }

/-- The validated second step of the `ghostEnv` plan: its integration
name is not registered. -/
def ghostStep2 : Step :=
  { id := "s2", type := some "generate_code", description := none
    integration := some "ghost", parameters := {}
    timeout := 60000, retryCount := 2 }

/-- The validated third step of the `ghostEnv` plan. -/
def ghostStep3 : Step :=
  { id := "s3", type := some "run_tests", description := none
    integration := some "taskMaster", parameters := {}
    timeout := 60000, retryCount := 2 }

/-- The plan `ghostEnv`'s response normalizes to. -/
def ghostPlan : Plan :=
  { steps := [ghostStep1, ghostStep2, ghostStep3], estimatedDuration := 300
    priority := "medium", dependencies := [], rollbackStrategy := "automatic" }

/-- The validated first step of the `slowEnv` plan. -/
def slowStep1 : Step :=
  { id := "s1", type := some "analyze", description := none
    integration := some "taskMaster", parameters := {}
    timeout := 60000, retryCount := 2 }

/-- The validated second step of the `slowEnv` plan: 50ms timeout. -/
def slowStep2 : Step :=
  { id := "s2", type := some "run_tests", description := none
    integration := some "taskMaster", parameters := {}
    timeout := 50, retryCount := 2 }

/-- The plan `slowEnv`'s response normalizes to. -/
def slowPlan : Plan :=
  { steps := [slowStep1, slowStep2], estimatedDuration := 300
    priority := "medium", dependencies := [], rollbackStrategy := "automatic" }

/-- The intermediate workflow object handed to the executor by
`executeWorkflow` once planning succeeded: status `running`, the plan
attached, log still empty. -/
def planningWf (st : EngineState) (instr : String) (opts : Options)
    (p : Plan) : Workflow :=
  { id := uuid st.nextUuid, instruction := instr, options := opts
    status := .running, createdAt := st.clock, steps := [], plan := some p }

/-! Helper lemmas. -/

/-- Coercing a raw steps list preserves its length. -/
theorem validateSteps_length (l : List RawStep) (n : Nat) :
    (validateSteps l n).1.length = l.length := by
  induction l generalizing n with
  | nil => rfl
  | cons st rest ih => simp [validateSteps, ih]

/-- Adding to a JS `Set` grows it by at most one element. -/
theorem setAdd_length (s : List String) (x : String) :
    (setAdd s x).length ≤ s.length + 1 := by
  unfold setAdd; split <;> simp

/-- No queue event changes the admission bound. -/
theorem tqStep_maxConcurrent (s : TQState) (e : TQEvent) :
    (tqStep s e).maxConcurrent = s.maxConcurrent := by
  obtain ⟨q, a, m⟩ := s
  cases e with
  | enqueue i => rfl
  | pollTick =>
    cases q with
    | nil => rfl
    | cons t rest => by_cases h : a.length < m <;> simp [tqStep, h]
  | settle i => rfl

/-- Every queue event preserves the admission invariant. -/
theorem tqStep_bound (s : TQState) (e : TQEvent)
    (h : s.activeJobs.length ≤ s.maxConcurrent) :
    (tqStep s e).activeJobs.length ≤ (tqStep s e).maxConcurrent := by
  obtain ⟨q, a, m⟩ := s
  have h' : a.length ≤ m := h
  cases e with
  | enqueue i => exact h'
  | pollTick =>
    cases q with
    | nil => exact h'
    | cons t rest =>
      by_cases hc : a.length < m
      · simp only [tqStep, if_pos hc]
        have := setAdd_length a t
        omega
      · simpa [tqStep, hc] using h'
  | settle i =>
    simp only [tqStep]
    exact le_trans (List.erase_sublist i a).length_le h'

/-- The admission invariant holds along every event trace. -/
theorem tqRun_invariant (evs : List TQEvent) :
    ∀ s : TQState, s.activeJobs.length ≤ s.maxConcurrent →
      (evs.foldl tqStep s).activeJobs.length ≤
        (evs.foldl tqStep s).maxConcurrent := by
  induction evs with
  | nil => intro s h; simpa using h
  | cons e rest ih => intro s h; exact ih (tqStep s e) (tqStep_bound s e h)

/-- The admission bound is constant along every event trace. -/
theorem tqRun_maxConcurrent (evs : List TQEvent) :
    ∀ s : TQState, (evs.foldl tqStep s).maxConcurrent = s.maxConcurrent := by
  induction evs with
  | nil => intro s; rfl
  | cons e rest ih =>
    intro s
    rw [List.foldl_cons, ih, tqStep_maxConcurrent]

/-! Claim theorems. -/

/-- Claim C7: at every observation point in the task queue's lifecycle
(any interleaving of enqueues, poll ticks and task settlements starting
from the fresh queue), the active-job count never exceeds
`maxConcurrent` (which stays at its default 3); moreover a poll tick
starts nothing unless the active-job count is strictly below the
bound. -/
theorem task_queue_active_bounded :
    (∀ evs : List TQEvent,
        (tqRun evs).activeJobs.length ≤ (tqRun evs).maxConcurrent ∧
        (tqRun evs).maxConcurrent = 3) ∧
    (∀ s : TQState, s.maxConcurrent ≤ s.activeJobs.length →
        tqStep s TQEvent.pollTick = s) := by
  constructor
  · intro evs
    refine ⟨tqRun_invariant evs TQState.init (by decide), ?_⟩
    simpa [TQState.init] using tqRun_maxConcurrent evs TQState.init
  · rintro ⟨q, a, m⟩ h
    have h' : m ≤ a.length := h
    cases q with
    | nil => rfl
    | cons t rest =>
      simp only [tqStep]
      rw [if_neg (by omega)]

/-- Witness for C7 at a concrete burst trace and a saturated state. -/
theorem task_queue_active_bounded_witness :
    (tqRun burstEvs).activeJobs.length ≤ (tqRun burstEvs).maxConcurrent ∧
    tqStep satState TQEvent.pollTick = satState :=
  ⟨(task_queue_active_bounded.1 burstEvs).1,
   task_queue_active_bounded.2 satState (by decide)⟩

/-- Claim C3 counterexample: a response that parses as the empty JSON
object — a raw plan source that cannot be parsed into an object with a
steps sequence — is normalized to a plan with an empty steps list, not
to the 4-step fallback plan. -/
theorem parsed_object_without_steps_not_fallback :
    (parseWorkflowPlan (.parsed (.obj {})) 0).1.steps = [] ∧
    (parseWorkflowPlan (.parsed (.obj {})) 0).1 ≠ (createFallbackPlan 0).1 := by
  decide

/-- Claim C3 as amended: normalization is total (never throws), and
whenever `JSON.parse` throws or the parsed value makes the coercion
throw (the `null` parse), the result is exactly the fixed fallback plan:
4 steps analyze → generate_code → run_tests → commit_changes, priority
medium. -/
theorem parse_or_coercion_throw_yields_fallback (r : AiResponse) (n : Nat)
    (h : r = .unparseable ∨ r = .parsed .jsNull) :
    parseWorkflowPlan r n = createFallbackPlan n ∧
    ((parseWorkflowPlan r n).1.steps.map Step.type) =
      [some "analyze", some "generate_code", some "run_tests",
        some "commit_changes"] ∧
    (parseWorkflowPlan r n).1.priority = "medium" := by
  rcases h with rfl | rfl <;> exact ⟨rfl, rfl, rfl⟩

/-- Witness for the amended C3 at an unparseable source. -/
theorem parse_or_coercion_throw_yields_fallback_witness :
    parseWorkflowPlan .unparseable 0 = createFallbackPlan 0 ∧
    ((parseWorkflowPlan .unparseable 0).1.steps.map Step.type) =
      [some "analyze", some "generate_code", some "run_tests",
        some "commit_changes"] ∧
    (parseWorkflowPlan .unparseable 0).1.priority = "medium" :=
  parse_or_coercion_throw_yields_fallback .unparseable 0 (Or.inl rfl)

/-- Claim C9 counterexample: normalizing a source that parses as an
object without a steps sequence yields a plan with zero steps — the
normalized plan is not always non-empty. -/
theorem normalized_plan_can_be_empty :
    (parseWorkflowPlan (.parsed (.obj {})) 0).1.steps.length = 0 ∧
    ¬ 1 ≤ (parseWorkflowPlan (.parsed (.obj {})) 0).1.steps.length := by
  decide

/-- Claim C9 as amended: only the fallback path guarantees non-emptiness —
a source whose parse or coercion throws yields the 4-step fallback,
while a successfully parsed object yields exactly as many steps as its
raw steps array carries (possibly zero, and zero as well for a scalar
parse). -/
theorem plan_step_count_characterization (r : AiResponse) (n : Nat) :
    ((r = .unparseable ∨ r = .parsed .jsNull) →
        (parseWorkflowPlan r n).1.steps.length = 4) ∧
    (∀ o : RawPlanObj, r = .parsed (.obj o) →
        (parseWorkflowPlan r n).1.steps.length = rawStepsLen o) ∧
    (r = .parsed .scalar → (parseWorkflowPlan r n).1.steps.length = 0) := by
  refine ⟨?_, ?_, ?_⟩
  · rintro (rfl | rfl) <;> rfl
  · rintro ⟨os, ed, pr, dp, rb⟩ rfl
    cases os with
    | arr l =>
      simpa [parseWorkflowPlan, validateWorkflowPlan, coercePlanObj,
        rawStepsLen] using validateSteps_length l n
    | missing => rfl
    | notArray => rfl
  · rintro rfl; rfl

/-- Witness for the amended C9 at an unparseable source and at the empty
object. -/
theorem plan_step_count_characterization_witness :
    (parseWorkflowPlan .unparseable 0).1.steps.length = 4 ∧
    (parseWorkflowPlan (.parsed (.obj {})) 7).1.steps.length = rawStepsLen {} :=
  ⟨(plan_step_count_characterization .unparseable 0).1 (Or.inl rfl),
   (plan_step_count_characterization (.parsed (.obj {})) 7).2.1 {} rfl⟩

/-- Claim C10: a raw step whose `timeout` or `retryCount` is explicitly
0 (or absent — both are falsy under `||`) is coerced to the defaults
60000 and 2; explicit zeros are not preserved. -/
theorem falsy_timeout_retry_coerced_to_defaults (st : RawStep) (n : Nat)
    (ht : st.timeout = some 0 ∨ st.timeout = none)
    (hr : st.retryCount = some 0 ∨ st.retryCount = none) :
    (validateStep st n).1.timeout = 60000 ∧
    (validateStep st n).1.retryCount = 2 := by
  obtain ⟨i, t, d, g, p, tmo, rc⟩ := st
  rcases ht with h | h <;> rcases hr with h' | h' <;>
    simp_all [validateStep, jsOrNat]

/-- Witness for C10 at a step carrying explicit zeros. -/
theorem falsy_timeout_retry_coerced_to_defaults_witness :
    (validateStep { timeout := some 0, retryCount := some 0 } 0).1.timeout
        = 60000 ∧
    (validateStep { timeout := some 0, retryCount := some 0 } 0).1.retryCount
        = 2 :=
  falsy_timeout_retry_coerced_to_defaults _ 0 (Or.inl rfl) (Or.inl rfl)

/-- Splitting the executor loop at a list boundary when the first part
finishes without error. -/
theorem execLoop_append_ok (env : Env) (w : Workflow) (xs ys : List Step) :
    ∀ res log, (execLoop env w xs res log).2.2 = none →
      execLoop env w (xs ++ ys) res log =
        execLoop env w ys (execLoop env w xs res log).1
          (execLoop env w xs res log).2.1 := by
  induction xs with
  | nil => intro res log _; rfl
  | cons s rest ih =>
    intro res log h
    simp only [execLoop, List.cons_append] at h ⊢
    cases hs : executeStep env s w with
    | ok r => rw [hs] at h; exact ih _ _ h
    | error e => rw [hs] at h; simp at h

/-- The executor loop ignores everything after a failing step. -/
theorem execLoop_append_err (env : Env) (w : Workflow) (xs ys : List Step)
    (e : String) :
    ∀ res log, (execLoop env w xs res log).2.2 = some e →
      execLoop env w (xs ++ ys) res log = execLoop env w xs res log := by
  induction xs with
  | nil => intro res log h; simp [execLoop] at h
  | cons s rest ih =>
    intro res log h
    simp only [execLoop, List.cons_append] at h ⊢
    cases hs : executeStep env s w with
    | ok r => rw [hs] at h; exact ih _ _ h
    | error e' => rfl

/-- When every remaining step succeeds, the executor loop finishes
without error, extends the results and log by one entry per step, and
every appended log entry is a success record. -/
theorem execLoop_ok_of_forall (env : Env) (w : Workflow) :
    ∀ (steps : List Step) (res : List StepResult) (log : List ExecutedStep),
      (∀ s ∈ steps, (executeStep env s w).isOk = true) →
      (execLoop env w steps res log).2.2 = none ∧
      (execLoop env w steps res log).1.length = res.length + steps.length ∧
      (execLoop env w steps res log).2.1.length = log.length + steps.length ∧
      (∀ en ∈ (execLoop env w steps res log).2.1,
        en ∈ log ∨ en.status = "completed") := by
  intro steps
  induction steps with
  | nil =>
    intro res log _
    exact ⟨rfl, by simp [execLoop], by simp [execLoop],
      fun en hen => Or.inl hen⟩
  | cons s rest ih =>
    intro res log hall
    have hs := hall s (by simp)
    obtain ⟨r, hr⟩ : ∃ r, executeStep env s w = .ok r := by
      cases hq : executeStep env s w with
      | ok r => exact ⟨r, rfl⟩
      | error e => rw [hq] at hs; simp [Except.isOk, Except.toBool] at hs
    have hrest : ∀ s' ∈ rest, (executeStep env s' w).isOk = true :=
      fun s' h' => hall s' (by simp [h'])
    obtain ⟨h1, h2, h3, h4⟩ :=
      ih (res ++ [r]) (log ++ [⟨s, "completed", r⟩]) hrest
    simp only [execLoop, hr]
    refine ⟨h1, ?_, ?_, ?_⟩
    · rw [h2]; simp; omega
    · rw [h3]; simp; omega
    · intro en hen
      rcases h4 en hen with h | h
      · rcases List.mem_append.mp h with h | h
        · exact Or.inl h
        · right
          simp only [List.mem_singleton] at h
          rw [h]
      · exact Or.inr h

/-- A failing step aborts the executor loop immediately with its
error. -/
theorem execLoop_fail_head (env : Env) (w : Workflow) (s : Step)
    (rest : List Step) (res : List StepResult) (log : List ExecutedStep)
    (e : String) (h : executeStep env s w = .error e) :
    execLoop env w (s :: rest) res log = (res, log, some e) := by
  simp [execLoop, h]

/-- When every plan step succeeds, the executor resolves with a
completed result carrying one step result and one log entry per
step. -/
theorem executorExecute_of_all_ok (env : Env) (w : Workflow) (plan : Plan)
    (h : ∀ s ∈ plan.steps, (executeStep env s w).isOk = true) :
    (executorExecute env w plan).1.length = plan.steps.length ∧
    (∀ en ∈ (executorExecute env w plan).1, en.status = "completed") ∧
    ∃ fr, (executorExecute env w plan).2 = .ok fr ∧
      fr.status = "completed" ∧ fr.steps.length = plan.steps.length ∧
      fr.workflowId = w.id := by
  obtain ⟨h1, h2, h3, h4⟩ := execLoop_ok_of_forall env w plan.steps [] [] h
  simp only [executorExecute, h1]
  refine ⟨by simpa using h3, ?_, ?_⟩
  · intro en hen
    rcases h4 en hen with h' | h'
    · simp at h'
    · exact h'
  · exact ⟨_, rfl, rfl, by simpa using h2, rfl⟩

/-- When the steps split as `pre ++ fs :: post` with every `pre` step
succeeding and `fs` failing with `e`, the executor rejects with `e`, the
log holds exactly one success record per `pre` step, and the steps after
`fs` are never invoked: dropping them leaves the run unchanged. -/
theorem executorExecute_fail_at (env : Env) (w : Workflow) (plan : Plan)
    (pre : List Step) (fs : Step) (post : List Step) (e : String)
    (hshape : plan.steps = pre ++ fs :: post)
    (hpre : ∀ s ∈ pre, (executeStep env s w).isOk = true)
    (hfail : executeStep env fs w = .error e) :
    (executorExecute env w plan).2 = .error e ∧
    (executorExecute env w plan).1.length = pre.length ∧
    (∀ en ∈ (executorExecute env w plan).1, en.status = "completed") ∧
    executorExecute env w plan =
      executorExecute env w { plan with steps := pre ++ [fs] } := by
  obtain ⟨h1, h2, h3, h4⟩ := execLoop_ok_of_forall env w pre [] [] hpre
  have key : ∀ tail : List Step,
      execLoop env w (pre ++ fs :: tail) [] [] =
        ((execLoop env w pre [] []).1,
          (execLoop env w pre [] []).2.1, some e) := by
    intro tail
    rw [execLoop_append_ok env w pre (fs :: tail) [] [] h1,
      execLoop_fail_head env w fs tail _ _ e hfail]
  have main : executorExecute env w plan =
      ((execLoop env w pre [] []).2.1, .error e) := by
    dsimp only [executorExecute]
    rw [hshape, key post]
  have main2 : executorExecute env w { plan with steps := pre ++ [fs] } =
      ((execLoop env w pre [] []).2.1, .error e) := by
    dsimp only [executorExecute]
    rw [key []]
  refine ⟨by rw [main], by rw [main]; simpa using h3, ?_, by rw [main, main2]⟩
  intro en hen
  rw [main] at hen
  rcases h4 en hen with h' | h'
  · simp at h'
  · exact h'

/-- Unfolding of `executeWorkflow` on an initialized engine whose
planning call succeeds: the resolved outcome mirrors the executor run on
the intermediate running workflow — a completed run yields status
`completed` and a success envelope carrying the result, a failed run
yields status `failed` and a failure envelope carrying the error, and in
both cases the workflow's log is the run's log and the workflow leaves
the registry. -/
theorem executeWorkflow_of_run (env : Env) (st : EngineState) (instr : String)
    (opts : Options) (p : Plan) (n2 : Nat)
    (hready : st.ready = true)
    (hplan : createWorkflowPlan env instr opts (st.nextUuid + 1) = .ok (p, n2)) :
    ∃ o, executeWorkflow env st instr opts = .ok o ∧
      o.workflow.steps = (executorExecute env (planningWf st instr opts p) p).1 ∧
      mapGet o.state.activeWorkflows (uuid st.nextUuid) = none ∧
      ((∃ fr, (executorExecute env (planningWf st instr opts p) p).2 = .ok fr ∧
          o.workflow.status = .completed ∧ o.envelope.success = true ∧
          o.envelope.result = some fr) ∨
        (∃ e, (executorExecute env (planningWf st instr opts p) p).2 = .error e ∧
          o.workflow.status = .failed ∧ o.envelope.success = false ∧
          o.envelope.error = some e)) := by
  have hgone : ∀ m : List (String × Workflow),
      mapGet (mapDel m (uuid st.nextUuid)) (uuid st.nextUuid) = none := by
    intro m
    simp [mapGet, mapDel, List.find?_eq_none, List.mem_filter]
  simp only [executeWorkflow]
  rw [if_neg (by simp [hready])]
  rw [hplan]
  dsimp only
  cases hrun : (executorExecute env (planningWf st instr opts p) p).2 with
  | ok fr =>
    have hrun' := hrun
    dsimp only [planningWf] at hrun'
    rw [hrun']
    exact ⟨_, rfl, rfl, hgone _, Or.inl ⟨fr, rfl, rfl, rfl, rfl⟩⟩
  | error e =>
    have hrun' := hrun
    dsimp only [planningWf] at hrun'
    rw [hrun']
    exact ⟨_, rfl, rfl, hgone _, Or.inr ⟨e, rfl, rfl, rfl, rfl⟩⟩


/-- Deleting a key from the registry makes lookup of that key fail. -/
theorem mapGet_mapDel (m : List (String × Workflow)) (k : String) :
    mapGet (mapDel m k) k = none := by
  simp [mapGet, mapDel, List.find?_eq_none, List.mem_filter]

/-- Claim C4: for every plan of well-formed steps whose provider
invocations all succeed (each within its timeout, for any workflow
context), executing the workflow on an initialized engine resolves
successfully: the workflow ends `completed`, and both the result's step
list and the workflow's log have exactly one entry per plan step. -/
theorem all_steps_succeed_completes_with_full_log (env : Env)
    (st : EngineState) (instr : String) (opts : Options) (p : Plan) (n2 : Nat)
    (hready : st.ready = true)
    (hplan : createWorkflowPlan env instr opts (st.nextUuid + 1) = .ok (p, n2))
    (hsteps : ∀ (s : Step) (w : Workflow), s ∈ p.steps →
      (executeStep env s w).isOk = true) :
    ∃ o, executeWorkflow env st instr opts = .ok o ∧
      o.envelope.success = true ∧
      o.workflow.status = WStatus.completed ∧
      o.workflow.steps.length = p.steps.length ∧
      ∃ fr, o.envelope.result = some fr ∧ fr.status = "completed" ∧
        fr.steps.length = p.steps.length := by
  obtain ⟨o, ho, hlog, hreg, hcase⟩ :=
    executeWorkflow_of_run env st instr opts p n2 hready hplan
  obtain ⟨hlen, hent, fr, hfr, hfrs, hfrl, hfrid⟩ :=
    executorExecute_of_all_ok env (planningWf st instr opts p) p
      (fun s hs => hsteps s _ hs)
  rcases hcase with ⟨fr2, hfr2, hst, hsucc, hres⟩ | ⟨e, he, _, _, _⟩
  · have hff : fr = fr2 := by rw [hfr] at hfr2; exact Except.ok.inj hfr2
    subst hff
    refine ⟨o, ho, hsucc, hst, ?_, fr, hres, hfrs, hfrl⟩
    rw [hlog]; exact hlen
  · rw [he] at hfr; cases hfr

/-- Witness for C4: the end-to-end scenario with an unparseable plan
response and succeeding stub providers runs all 4 fallback steps. -/
theorem all_steps_succeed_completes_with_full_log_witness :
    ∃ o, executeWorkflow stubEnv EngineState.start "add a health endpoint" []
        = .ok o ∧
      o.envelope.success = true ∧
      o.workflow.status = WStatus.completed ∧
      o.workflow.steps.length = (createFallbackPlan 1).1.steps.length ∧
      ∃ fr, o.envelope.result = some fr ∧ fr.status = "completed" ∧
        fr.steps.length = (createFallbackPlan 1).1.steps.length :=
  all_steps_succeed_completes_with_full_log stubEnv EngineState.start
    "add a health endpoint" [] (createFallbackPlan 1).1 5 rfl rfl
    (by
      intro s w hs
      simp only [createFallbackPlan, List.mem_cons, List.not_mem_nil,
        or_false] at hs
      rcases hs with rfl | rfl | rfl | rfl <;> rfl)

/-- Claim C2 counterexample: a 2-step plan whose first step throws ends
`failed` with an executed-step log of length 0 — there is no appended
failure record, so the log length is not (k − 1) + 1 = 1 as the claim
states. -/
theorem step_failure_log_has_no_failure_record :
    ((executeWorkflow failEnv EngineState.start "build feature" []).toOption.map
        fun o => (o.workflow.status, o.workflow.steps.length))
      = some (WStatus.failed, 0) ∧
    ¬ ((executeWorkflow failEnv EngineState.start "build feature" []).toOption.map
        fun o => (o.workflow.status, o.workflow.steps.length))
      = some (WStatus.failed, 1) := by
  decide

/-- Claim C2 as amended: when step k (1-indexed) of a plan throws, the
workflow ends `failed` and the error is surfaced in the envelope, the
executed-step log holds exactly the k − 1 success records of the prior
steps (no failure record is appended for step k), and the steps after k
are never invoked — dropping them leaves the executor run unchanged. -/
theorem fail_fast_logs_only_prior_successes (env : Env) (st : EngineState)
    (instr : String) (opts : Options) (p : Plan) (n2 : Nat)
    (pre : List Step) (fs : Step) (post : List Step) (e : String)
    (hready : st.ready = true)
    (hplan : createWorkflowPlan env instr opts (st.nextUuid + 1) = .ok (p, n2))
    (hshape : p.steps = pre ++ fs :: post)
    (hpre : ∀ (s : Step) (w : Workflow), s ∈ pre →
      (executeStep env s w).isOk = true)
    (hfail : ∀ w : Workflow, executeStep env fs w = .error e) :
    ∃ o, executeWorkflow env st instr opts = .ok o ∧
      o.workflow.status = WStatus.failed ∧
      o.envelope.success = false ∧
      o.envelope.error = some e ∧
      o.workflow.steps.length = pre.length ∧
      (∀ en ∈ o.workflow.steps, en.status = "completed") ∧
      (∀ w : Workflow, executorExecute env w p =
        executorExecute env w { p with steps := pre ++ [fs] }) := by
  obtain ⟨o, ho, hlog, hreg, hcase⟩ :=
    executeWorkflow_of_run env st instr opts p n2 hready hplan
  obtain ⟨herr, hlen, hent, hdrop⟩ :=
    executorExecute_fail_at env (planningWf st instr opts p) p pre fs post e
      hshape (fun s hs => hpre s _ hs) (hfail _)
  rcases hcase with ⟨fr, hfr, _, _, _⟩ | ⟨e2, he2, hst, hsucc, herr2⟩
  · rw [herr] at hfr; cases hfr
  · have hee : e2 = e := by rw [herr] at he2; exact (Except.error.inj he2).symm
    rw [hee] at herr2
    refine ⟨o, ho, hst, hsucc, herr2, ?_, ?_, ?_⟩
    · rw [hlog]; exact hlen
    · intro en hen; rw [hlog] at hen; exact hent en hen
    · intro w
      exact (executorExecute_fail_at env w p pre fs post e hshape
        (fun s hs => hpre s _ hs) (hfail _)).2.2.2

/-- Witness for the amended C2: step 2 of a 3-step plan names the
unregistered integration `ghost`; step 1's success is the only log
entry, step 3 is never invoked. -/
theorem fail_fast_logs_only_prior_successes_witness :
    ∃ o, executeWorkflow ghostEnv EngineState.start "demo" [] = .ok o ∧
      o.workflow.status = WStatus.failed ∧
      o.envelope.success = false ∧
      o.envelope.error = some "Integration 'ghost' not found" ∧
      o.workflow.steps.length = [ghostStep1].length ∧
      (∀ en ∈ o.workflow.steps, en.status = "completed") ∧
      (∀ w : Workflow, executorExecute ghostEnv w ghostPlan =
        executorExecute ghostEnv w
          { ghostPlan with steps := [ghostStep1] ++ [ghostStep2] }) :=
  fail_fast_logs_only_prior_successes ghostEnv EngineState.start "demo" []
    ghostPlan 1 [ghostStep1] ghostStep2 [ghostStep3]
    "Integration 'ghost' not found" rfl rfl rfl
    (by
      intro s w hs
      simp only [List.mem_singleton] at hs
      subst hs; rfl)
    (fun w => rfl)

/-- Claim C5: when the provider call of some step k takes strictly
longer than its `timeoutMs` (every earlier step succeeding), the step is
rejected with the timeout error naming the step id and its timeout, and
the workflow ends `failed` with that error in the envelope. -/
theorem step_timeout_fails_workflow (env : Env) (st : EngineState)
    (instr : String) (opts : Options) (p : Plan) (n2 : Nat)
    (pre : List Step) (fs : Step) (post : List Step)
    (hready : st.ready = true)
    (hplan : createWorkflowPlan env instr opts (st.nextUuid + 1) = .ok (p, n2))
    (hshape : p.steps = pre ++ fs :: post)
    (hpre : ∀ (s : Step) (w : Workflow), s ∈ pre →
      (executeStep env s w).isOk = true)
    (hslow : env.duration fs > fs.timeout) :
    ∃ o, executeWorkflow env st instr opts = .ok o ∧
      o.workflow.status = WStatus.failed ∧
      o.envelope.success = false ∧
      o.envelope.error = some
        ("Step " ++ fs.id ++ " timed out after " ++ toString fs.timeout ++ "ms") := by
  have hfail : ∀ w : Workflow, executeStep env fs w = .error (timeoutMsg fs) := by
    intro w; simp [executeStep, hslow]
  obtain ⟨o, ho, hlog, hreg, hcase⟩ :=
    executeWorkflow_of_run env st instr opts p n2 hready hplan
  obtain ⟨herr, _, _, _⟩ :=
    executorExecute_fail_at env (planningWf st instr opts p) p pre fs post
      (timeoutMsg fs) hshape (fun s hs => hpre s _ hs) (hfail _)
  rcases hcase with ⟨fr, hfr, _, _, _⟩ | ⟨e2, he2, hst, hsucc, herr2⟩
  · rw [herr] at hfr; cases hfr
  · have hee : e2 = timeoutMsg fs := by
      rw [herr] at he2; exact (Except.error.inj he2).symm
    subst hee
    exact ⟨o, ho, hst, hsucc, herr2⟩

/-- Witness for C5: step 2's invocation takes 999999ms against a 50ms
timeout. -/
theorem step_timeout_fails_workflow_witness :
    ∃ o, executeWorkflow slowEnv EngineState.start "demo" [] = .ok o ∧
      o.workflow.status = WStatus.failed ∧
      o.envelope.success = false ∧
      o.envelope.error = some
        ("Step " ++ slowStep2.id ++ " timed out after "
          ++ toString slowStep2.timeout ++ "ms") :=
  step_timeout_fails_workflow slowEnv EngineState.start "demo" []
    slowPlan 1 [slowStep1] slowStep2 [] rfl rfl rfl
    (by
      intro s w hs
      simp only [List.mem_singleton] at hs
      subst hs; rfl)
    (by decide)

/-- Claim C6: on an initialized engine, `execute()` always resolves with
a `{success, workflowId, result|error}` envelope — planning and step
errors become `success = false` with the error carried as data, never a
rejection. -/
theorem execute_always_resolves_envelope (env : Env) (st : EngineState)
    (instr : String) (opts : Options) (hready : st.ready = true) :
    ∃ o, executeWorkflow env st instr opts = .ok o ∧
      (o.envelope.success = true ∨
        (o.envelope.success = false ∧ o.envelope.error.isSome = true)) := by
  cases hq : createWorkflowPlan env instr opts (st.nextUuid + 1) with
  | error e =>
    simp only [executeWorkflow]
    rw [if_neg (by simp [hready]), hq]
    exact ⟨_, rfl, Or.inr ⟨rfl, rfl⟩⟩
  | ok pr =>
    obtain ⟨p, n2⟩ := pr
    obtain ⟨o, ho, _, _, hcase⟩ :=
      executeWorkflow_of_run env st instr opts p n2 hready hq
    rcases hcase with ⟨fr, _, _, hsucc, _⟩ | ⟨e, _, _, hsucc, herr⟩
    · exact ⟨o, ho, Or.inl hsucc⟩
    · exact ⟨o, ho, Or.inr ⟨hsucc, by rw [herr]; rfl⟩⟩

/-- Witness for C6 on the end-to-end scenario environment. -/
theorem execute_always_resolves_envelope_witness :
    ∃ o, executeWorkflow stubEnv EngineState.start "probe" [] = .ok o ∧
      (o.envelope.success = true ∨
        (o.envelope.success = false ∧ o.envelope.error.isSome = true)) :=
  execute_always_resolves_envelope stubEnv EngineState.start "probe" [] rfl

/-- Claim C1 (code bug): `StateManager.updateMetrics` has no call site,
so no terminal workflow outcome is ever folded into the aggregate
metrics: every resolved `executeWorkflow` call leaves the metrics
untouched, and in the spec's end-to-end scenario (fallback plan, all 4
steps succeed) `completedWorkflows` stays 0 instead of incrementing
to 1. -/
theorem metrics_never_recorded :
    (∀ (env : Env) (st : EngineState) (instr : String) (opts : Options)
        (o : ExecOutcome), executeWorkflow env st instr opts = .ok o →
        o.state.metrics = st.metrics) ∧
    ((executeWorkflow stubEnv EngineState.start "add a health endpoint" []
        ).toOption.map fun o => (o.envelope.success, o.workflow.status,
          o.state.metrics.totalWorkflows, o.state.metrics.completedWorkflows))
      = some (true, WStatus.completed, 0, 0) := by
  constructor
  · intro env st instr opts o h
    simp only [executeWorkflow] at h
    split at h
    · cases h
    · split at h
      · injection h with h; subst h; rfl
      · split at h
        · injection h with h; subst h; rfl
        · injection h with h; subst h; rfl
  · decide

/-- Witness for C1: the scenario run resolves and its metrics equal the
initial metrics. -/
theorem metrics_never_recorded_witness :
    ∃ o, executeWorkflow stubEnv EngineState.start "add a health endpoint" []
        = .ok o ∧ o.state.metrics = EngineState.start.metrics :=
  ⟨_, rfl, metrics_never_recorded.1 stubEnv EngineState.start
    "add a health endpoint" [] _ rfl⟩

/-- Claim C8 counterexample: cancelling a workflow whose status is
`pending` returns it with status still `pending` — it is removed from
the registry but never marked `cancelled`. -/
theorem cancel_pending_leaves_status_pending :
    ((cancelWorkflow pendingState "w1").toOption.map fun r => r.1.status)
      = some WStatus.pending ∧
    ¬ ((cancelWorkflow pendingState "w1").toOption.map fun r => r.1.status)
      = some WStatus.cancelled := by
  decide

/-- Claim C8 as amended: `cancel` on a registered workflow removes it
from the registry and returns it, marking it `cancelled` only when its
status was `running` (a `pending` workflow is returned unchanged);
`cancel` on an unknown id throws the not-found error. -/
theorem cancel_running_cancels_and_removes (st : EngineState) (wid : String) :
    (∀ wf, mapGet st.activeWorkflows wid = some wf →
      ∃ w' st', cancelWorkflow st wid = .ok (w', st') ∧
        (wf.status = WStatus.running → w'.status = WStatus.cancelled) ∧
        (wf.status ≠ WStatus.running → w' = wf) ∧
        mapGet st'.activeWorkflows wid = none) ∧
    (mapGet st.activeWorkflows wid = none →
      cancelWorkflow st wid = .error ("Workflow " ++ wid ++ " not found")) := by
  constructor
  · intro wf hwf
    simp only [cancelWorkflow, hwf]
    by_cases hr : wf.status = WStatus.running
    · rw [if_pos hr]
      exact ⟨_, _, rfl, fun _ => rfl, fun hn => absurd hr hn,
        mapGet_mapDel _ _⟩
    · rw [if_neg hr]
      exact ⟨_, _, rfl, fun hy => absurd hy hr, fun _ => rfl,
        mapGet_mapDel _ _⟩
  · intro hnone
    simp only [cancelWorkflow, hnone]

/-- Witness for the amended C8: cancelling a running workflow marks it
`cancelled` and empties the registry. -/
theorem cancel_running_cancels_and_removes_witness :
    ∃ w' st', cancelWorkflow runningState "w2" = .ok (w', st') ∧
      w'.status = WStatus.cancelled ∧
      mapGet st'.activeWorkflows "w2" = none := by
  obtain ⟨w', st', heq, hrun, _, hgone⟩ :=
    (cancel_running_cancels_and_removes runningState "w2").1 runningWf rfl
  exact ⟨w', st', heq, hrun rfl, hgone⟩

end AutoDevOps
